import Mathlib

/-!
# Verification of the Kalshi trading-bot pipeline

Shallow embedding of the repository's four modules:

* `bot3.py`    — the `KalshiBot` decision engine (entry/exit threshold rules);
* `api3.py`    — the market client: `fetch_hourly_markets` filtering (`is_hourly`)
                 and `place_trade` error handling;
* `assistant3.py` — the orchestrator: candle aggregation (`update_candles`),
                 the auto-trading decision loop (`auto_trade_logic`), PnL and
                 position bookkeeping.

Python floats are modelled as exact rationals (`ℚ`); `datetime` values as
rational seconds since an arbitrary epoch; timedeltas accordingly
(`hours=h` is `3600 * h` seconds).  Python code that can raise is embedded
into `Except PyErr`; functions returning `None` on failure into `Option`.
-/

namespace Kalshi

/-- A Python exception class relevant to the claims under study. -/
inductive PyErr where
  | unboundLocalError
  | attributeError
  | typeError
deriving DecidableEq

/-- A parsed `datetime.datetime`: `fromisoformat` returns an offset-aware
value when the string carries a UTC offset (the `"+00:00"` produced by the
`"Z"` rewrite, or any explicit offset) and an offset-naive one when it does
not.  Comparing a naive value against the offset-aware `now` raises
`TypeError`. -/
inductive PyDatetime where
  | aware (t : ℚ)
  | naive (t : ℚ)
deriving DecidableEq

/-- A dynamically typed Python value as it may appear in a JSON market
record field (the shapes the claims exercise: strings and numbers). -/
inductive PyVal where
  | str (s : String)
  | int (n : Int)
deriving DecidableEq

/-- Python truthiness of a `PyVal`: `""` and `0` are falsy. -/
def pyTruthy : PyVal → Bool
  | .str s => s ≠ ""
  | .int n => n ≠ 0

/-- Python `str.lower()`: lower-case every character. -/
def py_lower (s : String) : String :=
  ⟨s.data.map Char.toLower⟩

/-- Python `str.replace(pat, repl)` for the single-character patterns this
program uses (`"Z"` and `"-"`): every occurrence of the character is
replaced by `repl`. -/
def py_replace_char (pat : Char) (repl : String) (s : String) : String :=
  ⟨(s.data.map fun c => if c = pat then repl.data else [c]).flatten⟩

/-! ## bot3.py — `KalshiBot` -/

/-- The trading parameters stored by `KalshiBot.__init__` (bot3.py 11-27).
All are `Final`: immutable after construction. -/
structure KalshiBot where
  entry_price_low : ℚ
  entry_price_high : ℚ
  exit_price_profit : ℚ
  exit_price_loss : ℚ
  trade_size : ℤ
  profit_goal : ℚ
  max_drawdown : ℚ
deriving DecidableEq

/-- `KalshiBot.should_enter_trade` (bot3.py 35-39):
`entry_price_low <= current_price <= entry_price_high`. -/
def KalshiBot.should_enter_trade (bot : KalshiBot) (current_price : ℚ) : Bool :=
  decide (bot.entry_price_low ≤ current_price ∧ current_price ≤ bot.entry_price_high)

/-- `KalshiBot.should_exit_trade` (bot3.py 41-51): `"profit"` when
`current_price >= exit_price_profit`, else `"loss"` when
`current_price <= exit_price_loss`, else the empty string. -/
def KalshiBot.should_exit_trade (bot : KalshiBot) (current_price : ℚ)
    (entry_price : ℚ) : String :=
  if current_price ≥ bot.exit_price_profit then "profit"
  else if current_price ≤ bot.exit_price_loss then "loss"
  else ""

/-! ## api3.py — market data model and `fetch_hourly_markets` -/

/-- One market record as consumed by the bot: the fields read by
`is_hourly` (api3.py 61-71) and `auto_trade_logic` (assistant3.py 133-136).
`close_time` keeps its dynamic type (`PyVal`), since the code's behaviour
depends on it. -/
structure Market where
  ticker : Option String
  status : Option String
  close_time : Option PyVal
  yes_bid : Option ℚ
  no_bid : Option ℚ
deriving DecidableEq

/-- One element of the `events` array: only its `markets` list is read
(api3.py 79-80). -/
structure EventRec where
  markets : List Market
deriving DecidableEq

/-- The JSON document returned by `fetch_event_data`: markets may sit under
a top-level `markets` key or under `events[].markets` (api3.py 74-82). -/
structure EventData where
  markets : Option (List Market)
  events : Option (List EventRec)
deriving DecidableEq

/-- The nested predicate `is_hourly` (api3.py 61-71), parametric in
`fromisoformat`, the library parse of an ISO timestamp string into a
`PyDatetime` (aware times as rational seconds), returning `none` where
Python raises `ValueError`.

* finalized status (case-insensitive) → `False`;
* missing or falsy `close_time` → `False`;
* a string `close_time` is parsed after replacing `"Z"` with `"+00:00"`;
  an unparseable one (`ValueError`, which is caught) → `False`;
* a truthy non-string `close_time` reaches `close_str.replace(...)`, which
  raises an uncaught `AttributeError`;
* a string parsing to an offset-naive datetime reaches the comparison
  `now < close_time` at api3.py 71 — outside the `try`, and a `TypeError`
  in any case — which raises uncaught (`now` is offset-aware);
* otherwise the result is `now < close_time <= cutoff`. -/
def is_hourly (fromisoformat : String → Option PyDatetime) (now cutoff : ℚ)
    (market : Market) : Except PyErr Bool :=
  if py_lower (market.status.getD "") = "finalized" then .ok false
  else
    match market.close_time with
    | none => .ok false
    | some close_str =>
      if !pyTruthy close_str then .ok false
      else
        match close_str with
        | .str s =>
          match fromisoformat (py_replace_char 'Z' "+00:00" s) with
          | none => .ok false
          | some (.aware close_time) =>
            .ok (decide (now < close_time ∧ close_time ≤ cutoff))
          | some (.naive _) => .error .typeError
        | .int _ => .error .attributeError

/-- The filtering loop of `fetch_hourly_markets` (api3.py 73-82): append
each record satisfying the predicate; an exception escaping the predicate
aborts the whole call. -/
def filter_hourly (p : Market → Except PyErr Bool) :
    List Market → Except PyErr (List Market)
  | [] => .ok []
  | m :: ms =>
    match p m with
    | .error e => .error e
    | .ok keep =>
      match filter_hourly p ms with
      | .error e => .error e
      | .ok rest => .ok (if keep then m :: rest else rest)

/-- The records scanned by `fetch_hourly_markets`: the top-level `markets`
list when present, else all `events[].markets`, else nothing (api3.py 74-82). -/
def all_records (d : EventData) : List Market :=
  match d.markets with
  | some ms => ms
  | none =>
    match d.events with
    | some evs => (evs.map EventRec.markets).flatten
    | none => []

/-- `fetch_hourly_markets` (api3.py 47-84) after the fetch: `data = none`
models a failed/empty fetch (return `[]`); otherwise filter the scanned
records by `is_hourly` with `cutoff = now + timedelta(hours=hours)`. -/
def fetch_hourly_markets (fromisoformat : String → Option PyDatetime)
    (now hours : ℚ)
    (data : Option EventData) : Except PyErr (List Market) :=
  match data with
  | none => .ok []
  | some d => filter_hourly (is_hourly fromisoformat now (now + 3600 * hours)) (all_records d)

/-! ## api3.py — `place_trade` -/

/-- The possible outcomes of `session.post` + `raise_for_status` inside
`place_trade` (api3.py 114-115):
* `success body` — 2xx response, `resp.json()` succeeds;
* `httpError body` — a response object exists but an exception is raised
  (e.g. `raise_for_status` on a 4xx/5xx), with `resp.text = body`;
* `networkError` — the POST raises before any response object exists
  (connection error, timeout), so the local `resp` is never assigned. -/
inductive PostOutcome where
  | success (body : String)
  | httpError (body : String)
  | networkError
deriving DecidableEq

/-- The `except` handler of `place_trade` (api3.py 118-121).  It evaluates
`getattr(resp, 'text', 'No response')`: if the local `resp` was assigned
(`some`), this is fine and the handler returns `None`; if `resp` was never
assigned, referencing it raises `UnboundLocalError`, which escapes. -/
def place_trade_handler (resp : Option String) : Except PyErr (Option String) :=
  match resp with
  | some _ => .ok none
  | none => .error .unboundLocalError

/-- `place_trade` (api3.py 86-121), abstracted over the POST outcome:
returns the confirmation document on success, and otherwise runs the
`except` handler with whatever the local `resp` holds at that point. -/
def place_trade (outcome : PostOutcome) : Except PyErr (Option String) :=
  match outcome with
  | .success body => .ok (some body)
  | .httpError body => place_trade_handler (some body)
  | .networkError => place_trade_handler none

/-! ## assistant3.py — candle aggregation -/

/-- One OHLC candle row of the `candles` dataframe (assistant3.py 87).
`open` is a Lean keyword, so the field is called `open_`. -/
structure Candle where
  time : ℚ
  open_ : ℚ
  high : ℚ
  low : ℚ
  close : ℚ
deriving DecidableEq

/-- The fresh row `{"time": now, "open": price, "high": price, "low": price,
"close": price}` (assistant3.py 87). -/
def new_candle (now price : ℚ) : Candle :=
  ⟨now, price, price, price, price⟩

/-- `update_candles` (assistant3.py 81-102).  `price = none` models a failed
price fetch: the function returns without touching the dataframe.  With a
price: append a fresh candle to an empty frame; else fold the price into the
last candle when `(now - last.time)` in minutes is below `interval`, keeping
`open` and `time`; else append a fresh candle. -/
def update_candles (interval : ℚ) (now : ℚ) (price : Option ℚ)
    (df : List Candle) : List Candle :=
  match price with
  | none => df
  | some price =>
    match df.getLast? with
    | none => [new_candle now price]
    | some last =>
      if (now - last.time) / 60 < interval then
        df.dropLast ++
          [{ last with high := max last.high price, low := min last.low price, close := price }]
      else
        df ++ [new_candle now price]

/-- The candle invariant of the spec's data model: `high ≥ max(open, close)`
and `low ≤ min(open, close)`. -/
def candle_inv (c : Candle) : Prop :=
  max c.open_ c.close ≤ c.high ∧ c.low ≤ min c.open_ c.close

/-! ## assistant3.py — auto-trading state and decision loop -/

/-- A recorded position (assistant3.py 193-197). -/
structure Position where
  side : String
  entry_price : ℚ
  quantity : ℤ
deriving DecidableEq

/-- The session state touched by the trading loop: `cumulative_pnl` and the
`positions` dict (assistant3.py 38-41), the latter as an insertion-ordered
association list, as Python dicts are. -/
structure TradeState where
  cumulative_pnl : ℚ
  positions : List (String × Position)
deriving DecidableEq

/-- `update_pnl` (assistant3.py 121-122): add `profit` to the cumulative
PnL.  Defined by the program but never called from the trading loop. -/
def update_pnl (profit : ℚ) (st : TradeState) : TradeState :=
  { st with cumulative_pnl := st.cumulative_pnl + profit }

/-- Python dict assignment `positions[ticker] = pos`: overwrite in place
when the key exists, else append. -/
def set_position (ps : List (String × Position)) (ticker : String)
    (pos : Position) : List (String × Position) :=
  if ps.any (fun q => q.1 = ticker) then
    ps.map (fun q => if q.1 = ticker then (ticker, pos) else q)
  else
    ps ++ [(ticker, pos)]

/-- Python `int()` applied to an exact rational: truncation toward zero. -/
def pyInt (q : ℚ) : ℤ :=
  q.num.tdiv q.den

/-! ### IEEE binary64 model

The source computes `int(chosen_price * 100)` (assistant3.py 164) in Python
floats, i.e. IEEE binary64.  A nonnegative double is represented here as a
pair `(m, e) : ℕ × ℤ` of value `m * 2 ^ e`; rounding keeps 53 significant
bits, ties to even.  All prices involved are in the normal range. -/

/-- Fuel-driven bit-length loop. -/
def bitlen_go : ℕ → ℕ → ℕ
  | 0, _ => 0
  | fuel + 1, n => if n = 0 then 0 else bitlen_go fuel (n / 2) + 1

/-- Number of binary digits of `n` (fuel 200 covers all binary64 work). -/
def bitlen (n : ℕ) : ℕ :=
  bitlen_go 200 n

/-- `n / d` rounded to the nearest natural number, ties to even. -/
def rdiv (n d : ℕ) : ℕ :=
  let q := n / d
  let r := n % d
  if 2 * r < d then q
  else if 2 * r > d then q + 1
  else if q % 2 = 0 then q else q + 1

/-- `a / b` rounded to the nearest integer multiple of `2 ^ d` (ties to
even), returned as the integer scale factor. -/
def scaled_rdiv (a b : ℕ) (d : ℤ) : ℕ :=
  if 0 ≤ d then rdiv a (b * 2 ^ d.toNat) else rdiv (a * 2 ^ (-d).toNat) b

/-- The IEEE binary64 double nearest to the positive rational `a / b`
(ties to even): a tentative exponent from the bit lengths, corrected by one
when the rounded significand falls outside 53 bits.  This is the double
Python stores for a decimal market bid such as `0.29`. -/
def f64_of_pos_rat (a b : ℕ) : ℕ × ℤ :=
  let d : ℤ := (bitlen a : ℤ) - (bitlen b : ℤ) - 53
  let m0 := scaled_rdiv a b d
  if 54 ≤ bitlen m0 then (scaled_rdiv a b (d + 1), d + 1)
  else if bitlen m0 ≤ 52 then (scaled_rdiv a b (d - 1), d - 1)
  else (m0, d)

/-- IEEE binary64 multiplication of nonnegative doubles: the exact product
of the significands, rounded back to 53 significant bits, ties to even. -/
def f64_mul (x y : ℕ × ℤ) : ℕ × ℤ :=
  let p := x.1 * y.1
  if bitlen p ≤ 53 then (p, x.2 + y.2)
  else (rdiv p (2 ^ (bitlen p - 53)), x.2 + y.2 + (bitlen p - 53))

/-- Python `int()` of a nonnegative double: truncation (here, floor). -/
def f64_to_int (x : ℕ × ℤ) : ℕ :=
  if 0 ≤ x.2 then x.1 * 2 ^ x.2.toNat else x.1 / 2 ^ (-x.2).toNat

/-- The cents integer `int(chosen_price * 100)` of assistant3.py 164 under
the source's IEEE binary64 arithmetic, for a stored double bid `x`. -/
def price_in_cents_f64 (x : ℕ × ℤ) : ℕ :=
  f64_to_int (f64_mul x (100, 0))

/-- The `place_trade` call payload built by `auto_trade_logic`
(assistant3.py 163-189): `action="buy"`, `type="Market"`, count from the
bot's trade size, the chosen price converted to integer cents by
`int(chosen_price * 100)` into `yes_price` for the yes side and into
`no_price` for the no side, and
`client_order_id = "order_" + ticker.replace("-", "_")`. -/
structure OrderPayload where
  action : String
  client_order_id : String
  count : ℤ
  sell_position_floor : ℤ
  side : String
  ticker : String
  order_type : String
  yes_price : ℤ
  no_price : ℤ
deriving DecidableEq

/-- Builds the order payload for the chosen side (assistant3.py 163-189). -/
def order_payload (bot : KalshiBot) (ticker chosen_side : String)
    (chosen_price : ℚ) : OrderPayload :=
  if chosen_side = "yes" then
    { action := "buy"
      client_order_id := "order_" ++ py_replace_char '-' "_" ticker
      count := bot.trade_size
      sell_position_floor := 0
      side := "yes"
      ticker := ticker
      order_type := "Market"
      yes_price := pyInt (chosen_price * 100)
      no_price := 0 }
  else
    { action := "buy"
      client_order_id := "order_" ++ py_replace_char '-' "_" ticker
      count := bot.trade_size
      sell_position_floor := 0
      side := "no"
      ticker := ticker
      order_type := "Market"
      yes_price := 0
      no_price := pyInt (chosen_price * 100) }

/-- The per-market side choice of `auto_trade_logic` (assistant3.py 133-161):
skip a market without a truthy ticker or with both bids absent; evaluate
`should_enter_trade` on each present bid; when both qualify take the yes
side iff `yes_bid <= no_bid`, else the single qualifying side, else skip. -/
def auto_trade_decision (bot : KalshiBot) (market : Market) :
    Option (String × ℚ) :=
  if market.ticker.getD "" = "" then none
  else
    match market.yes_bid, market.no_bid with
    | none, none => none
    | some yes_bid, none =>
      if bot.should_enter_trade yes_bid then some ("yes", yes_bid) else none
    | none, some no_bid =>
      if bot.should_enter_trade no_bid then some ("no", no_bid) else none
    | some yes_bid, some no_bid =>
      if bot.should_enter_trade yes_bid && bot.should_enter_trade no_bid then
        if yes_bid ≤ no_bid then some ("yes", yes_bid) else some ("no", no_bid)
      else if bot.should_enter_trade yes_bid then some ("yes", yes_bid)
      else if bot.should_enter_trade no_bid then some ("no", no_bid)
      else none

/-- The market loop of `auto_trade_logic` (assistant3.py 133-199),
abstracted over `place`, the outcome of `place_trade` per payload (`some`
confirmation on success, `none` on soft failure).  Returns the submitted
payloads in order together with the updated state: on a successful order
the position for the ticker is recorded/overwritten; on failure the state
is untouched. -/
def auto_trade_markets (bot : KalshiBot) (place : OrderPayload → Option String) :
    List Market → TradeState → List OrderPayload × TradeState
  | [], st => ([], st)
  | market :: rest, st =>
    match auto_trade_decision bot market with
    | none => auto_trade_markets bot place rest st
    | some (chosen_side, chosen_price) =>
      let ticker := market.ticker.getD ""
      let payload := order_payload bot ticker chosen_side chosen_price
      let st' :=
        match place payload with
        | some _ =>
          { st with positions :=
              set_position st.positions ticker ⟨chosen_side, chosen_price, bot.trade_size⟩ }
        | none => st
      let out := auto_trade_markets bot place rest st'
      (payload :: out.1, out.2)

/-- `auto_trade_logic` (assistant3.py 125-199): the halting guards checked
at the start of each cycle, then the market loop. -/
def auto_trade_logic (bot : KalshiBot) (place : OrderPayload → Option String)
    (all_markets : List Market) (st : TradeState) :
    List OrderPayload × TradeState :=
  if st.cumulative_pnl ≥ bot.profit_goal then ([], st)
  else if st.cumulative_pnl ≤ -bot.max_drawdown then ([], st)
  else auto_trade_markets bot place all_markets st

/-! ## Helper lemmas -/

/-- Membership in a successful `filter_hourly` run is membership in the
input together with the predicate holding. -/
theorem mem_filter_hourly {p : Market → Except PyErr Bool} :
    ∀ {ms res : List Market}, filter_hourly p ms = .ok res →
      ∀ m : Market, m ∈ res ↔ m ∈ ms ∧ p m = .ok true := by
  intro ms
  induction ms with
  | nil =>
    intro res h m
    simp only [filter_hourly, Except.ok.injEq] at h
    subst h
    simp
  | cons a as ih =>
    intro res h m
    simp only [filter_hourly] at h
    cases hpa : p a with
    | error e => rw [hpa] at h; exact absurd h (by simp)
    | ok keep =>
      rw [hpa] at h
      cases hrest : filter_hourly p as with
      | error e => rw [hrest] at h; exact absurd h (by simp)
      | ok rest =>
        rw [hrest] at h
        simp only [Except.ok.injEq] at h
        subst h
        have hmem := ih hrest m
        cases keep with
        | false =>
          simp only [Bool.false_eq_true, if_false]
          rw [hmem]
          constructor
          · rintro ⟨h1, h2⟩
            exact ⟨List.mem_cons_of_mem a h1, h2⟩
          · rintro ⟨h1, h2⟩
            rcases List.mem_cons.mp h1 with rfl | h1
            · exact absurd (hpa.symm.trans h2) (by simp)
            · exact ⟨h1, h2⟩
        | true =>
          simp only [if_true]
          rw [List.mem_cons, hmem]
          constructor
          · rintro (rfl | ⟨h1, h2⟩)
            · exact ⟨List.mem_cons_self _ _, hpa⟩
            · exact ⟨List.mem_cons_of_mem a h1, h2⟩
          · rintro ⟨h1, h2⟩
            rcases List.mem_cons.mp h1 with rfl | h1
            · exact Or.inl rfl
            · exact Or.inr ⟨h1, h2⟩

/-- `is_hourly` answers `.ok true` exactly on a non-finalized market with a
nonempty string `close_time` whose parse is an offset-aware time landing
strictly after `now` and at or before `cutoff`. -/
theorem is_hourly_ok_true_iff (f : String → Option PyDatetime)
    (now cutoff : ℚ) (m : Market) :
    is_hourly f now cutoff m = .ok true ↔
      (py_lower (m.status.getD "") ≠ "finalized" ∧
       ∃ s t, m.close_time = some (.str s) ∧ s ≠ "" ∧
         f (py_replace_char 'Z' "+00:00" s) = some (.aware t) ∧
         now < t ∧ t ≤ cutoff) := by
  unfold is_hourly
  split_ifs with hfin
  · simp [hfin]
  · cases hct : m.close_time with
    | none => simp [hfin]
    | some v =>
      cases v with
      | str s =>
        by_cases hs : s = ""
        · subst hs
          simp [pyTruthy, hfin]
        · cases hf : f (py_replace_char 'Z' "+00:00" s) with
          | none => simp [pyTruthy, hs, hf, hfin]
          | some t =>
            cases t with
            | aware q => simp [pyTruthy, hs, hf, hfin]
            | naive q => simp [pyTruthy, hs, hf, hfin]
      | int n =>
        by_cases hn : n = 0
        · subst hn; simp [pyTruthy, hfin]
        · simp [pyTruthy, hn, hfin]

/-- On a market whose `close_time` is absent or a string that is empty,
unparseable, or parsed to an offset-aware time, `is_hourly` never
raises. -/
theorem is_hourly_no_raise (f : String → Option PyDatetime) (now cutoff : ℚ)
    (m : Market)
    (h : ∀ v, m.close_time = some v → ∃ s, v = .str s ∧
      ∀ t, f (py_replace_char 'Z' "+00:00" s) = some t → ∃ q, t = .aware q) :
    ∃ b, is_hourly f now cutoff m = .ok b := by
  unfold is_hourly
  split_ifs with hfin
  · exact ⟨false, rfl⟩
  · cases hct : m.close_time with
    | none => exact ⟨false, rfl⟩
    | some v =>
      rcases h v hct with ⟨s, rfl, haware⟩
      by_cases hs : s = ""
      · subst hs; exact ⟨false, by simp [pyTruthy]⟩
      · cases hf : f (py_replace_char 'Z' "+00:00" s) with
        | none => exact ⟨false, by simp [pyTruthy, hs, hf]⟩
        | some t =>
          rcases haware t hf with ⟨q, rfl⟩
          exact ⟨decide (now < q ∧ q ≤ cutoff), by simp [pyTruthy, hs, hf]⟩

/-- A run of `filter_hourly` over markets on which the predicate never
raises succeeds. -/
theorem filter_hourly_no_raise {p : Market → Except PyErr Bool} :
    ∀ {ms : List Market}, (∀ m ∈ ms, ∃ b, p m = .ok b) →
      ∃ res, filter_hourly p ms = .ok res := by
  intro ms
  induction ms with
  | nil => intro _; exact ⟨[], rfl⟩
  | cons a as ih =>
    intro h
    rcases h a (List.mem_cons_self a as) with ⟨b, hb⟩
    rcases ih (fun m hm => h m (List.mem_cons_of_mem a hm)) with ⟨rest, hrest⟩
    refine ⟨if b then a :: rest else rest, ?_⟩
    simp [filter_hourly, hb, hrest]

/-- The market loop never touches `cumulative_pnl`. -/
theorem auto_trade_markets_pnl (bot : KalshiBot)
    (place : OrderPayload → Option String) :
    ∀ (ms : List Market) (st : TradeState),
      (auto_trade_markets bot place ms st).2.cumulative_pnl = st.cumulative_pnl := by
  intro ms
  induction ms with
  | nil => intro st; rfl
  | cons a as ih =>
    intro st
    simp only [auto_trade_markets]
    cases hd : auto_trade_decision bot a with
    | none => exact ih st
    | some sp =>
      obtain ⟨chosen_side, chosen_price⟩ := sp
      cases hpl : place (order_payload bot (a.ticker.getD "") chosen_side chosen_price) <;>
        simp only [hpl] <;> exact ih _

/-! ## Claims -/

/-- C1: `place_trade` is claimed to catch every failure of the POST and
return `None`.  The code contradicts this: when the POST raises before a
response object exists, the `except` handler's
`getattr(resp, 'text', 'No response')` references the never-assigned local
`resp` and raises `UnboundLocalError`, which escapes to the caller.  This
theorem evaluates the embedded `place_trade` at that failing outcome. -/
theorem place_trade_network_error_escapes :
    place_trade .networkError = .error .unboundLocalError := rfl

/-- C2 (counterexample): with the dashboard's default thresholds
(`exit_price_profit = 0.90`, `exit_price_loss = 0.15`) and a price strictly
between them, `should_exit_trade` does not return `"none"` — it returns the
empty string (bot3.py 51). -/
theorem should_exit_trade_not_none :
    KalshiBot.should_exit_trade ⟨0, 1, 9, 1, 10, 100, 50⟩ 5 4 ≠ "none" := by
  decide

/-- C2 (amended): `should_exit_trade` returns `"profit"` iff the price is
at or above `exit_price_profit`; else `"loss"` iff the price is at or below
`exit_price_loss` (the profit check takes priority when both hold); and
otherwise it returns the empty string `""`, not `"none"`. -/
theorem should_exit_trade_characterization (bot : KalshiBot) (p e : ℚ) :
    (bot.should_exit_trade p e = "profit" ↔ p ≥ bot.exit_price_profit) ∧
    (bot.should_exit_trade p e = "loss" ↔
      (¬ p ≥ bot.exit_price_profit ∧ p ≤ bot.exit_price_loss)) ∧
    (bot.should_exit_trade p e = "" ↔
      (¬ p ≥ bot.exit_price_profit ∧ ¬ p ≤ bot.exit_price_loss)) := by
  have h1 : ("profit" : String) ≠ "loss" := by decide
  have h2 : ("profit" : String) ≠ "" := by decide
  have h3 : ("loss" : String) ≠ "profit" := by decide
  have h4 : ("loss" : String) ≠ "" := by decide
  have h5 : ("" : String) ≠ "profit" := by decide
  have h6 : ("" : String) ≠ "loss" := by decide
  unfold KalshiBot.should_exit_trade
  split_ifs with hp hl
  · simp [hp, h1, h2]
  · simp [hp, hl, h3, h4]
  · simp [hp, hl, h5, h6]

/-- C3: a fetched record ends up in `fetch_hourly_markets`'s result exactly
when its status is not `"finalized"` case-insensitively, its `close_time`
is a nonempty string that parses (after the `"Z"` → `"+00:00"` rewrite),
and the parsed time lies in `(now, now + hours]`: the lower bound strict,
the upper bound inclusive, and a finalized market excluded regardless of
its `close_time`. -/
theorem fetch_hourly_markets_membership (f : String → Option PyDatetime)
    (now hours : ℚ) (d : EventData) (res : List Market)
    (h : fetch_hourly_markets f now hours (some d) = .ok res) (m : Market) :
    m ∈ res ↔
      m ∈ all_records d ∧
      py_lower (m.status.getD "") ≠ "finalized" ∧
      ∃ s t, m.close_time = some (.str s) ∧ s ≠ "" ∧
        f (py_replace_char 'Z' "+00:00" s) = some (.aware t) ∧
        now < t ∧ t ≤ now + 3600 * hours := by
  have h' : filter_hourly (is_hourly f now (now + 3600 * hours))
      (all_records d) = .ok res := h
  rw [mem_filter_hourly h' m, is_hourly_ok_true_iff]

/-- C3 witness: with parse `fun _ => some 3600`, `now = 0`, `hours = 1`, a
non-finalized market whose close time parses to exactly `now + hours` is
returned (inclusive upper bound), while a `"FINALIZED"` one is dropped. -/
theorem fetch_hourly_markets_membership_witness :
    (⟨some "A", some "open", some (.str "x"), none, none⟩ : Market) ∈
      ([⟨some "A", some "open", some (.str "x"), none, none⟩] : List Market) := by
  have h1 : py_lower "open" ≠ "finalized" := by decide
  have h2 : py_lower "FINALIZED" = "finalized" := by decide
  have h3 : (0 : ℚ) < 3600 := by norm_num
  have h4 : (3600 : ℚ) ≤ 0 + 3600 * 1 := by norm_num
  refine (fetch_hourly_markets_membership (fun _ => some (.aware 3600)) 0 1
      ⟨some [⟨some "A", some "open", some (.str "x"), none, none⟩,
             ⟨some "B", some "FINALIZED", some (.str "x"), none, none⟩], none⟩
      [⟨some "A", some "open", some (.str "x"), none, none⟩] ?_
      ⟨some "A", some "open", some (.str "x"), none, none⟩).mpr
      ⟨by decide, h1, "x", 3600, rfl, by decide, rfl, h3, h4⟩
  show filter_hourly _ _ = _
  simp [filter_hourly, is_hourly, pyTruthy, all_records, h1, h2, h3, h4]

/-- C4 (counterexample): the claim says a record with a missing or
unparseable `close_time` of any shape or type is skipped and the call
returns normally.  Two records refute it: one whose `close_time` is the
truthy number `5` (only `ValueError` is caught, and
`close_str.replace(...)` on an `int` raises an uncaught `AttributeError`),
and one whose `close_time` is a string that parses to an offset-naive
datetime (the comparison `now < close_time` at api3.py 71 then raises an
uncaught `TypeError` against the offset-aware `now`).  Either record makes
the whole call fail. -/
theorem fetch_hourly_markets_bad_close_time_raises :
    (fetch_hourly_markets (fun _ => none) 0 1
      (some ⟨some [⟨some "A", some "open", some (.int 5), none, none⟩],
             none⟩) =
      .error .attributeError) ∧
    (fetch_hourly_markets (fun _ => some (.naive 0)) 0 1
      (some ⟨some [⟨some "A", some "open",
                    some (.str "2030-01-01T00:00:00"), none, none⟩],
             none⟩) =
      .error .typeError) := by
  have h1 : py_lower "open" ≠ "finalized" := by decide
  have hs : ("2030-01-01T00:00:00" : String) ≠ "" := by decide
  constructor
  · simp [fetch_hourly_markets, all_records, filter_hourly, is_hourly,
      pyTruthy, h1]
  · simp [fetch_hourly_markets, all_records, filter_hourly, is_hourly,
      pyTruthy, h1, hs]

/-- C4 (amended): for every fetched record whose `close_time` is missing,
or is a string that is empty, fails to parse, or parses to an offset-aware
time, the call returns normally, and any record with a missing, empty or
unparseable `close_time` is excluded from the result; a record with a
truthy non-string `close_time` (uncaught `AttributeError`) or with a
string `close_time` parsing to an offset-naive datetime (uncaught
`TypeError` from `now < close_time`) instead makes the whole call fail. -/
theorem fetch_hourly_markets_string_close_time_safe
    (f : String → Option PyDatetime)
    (now hours : ℚ) (d : EventData)
    (h : ∀ m ∈ all_records d, ∀ v, m.close_time = some v → ∃ s, v = .str s ∧
      ∀ t, f (py_replace_char 'Z' "+00:00" s) = some t → ∃ q, t = .aware q) :
    ∃ res, fetch_hourly_markets f now hours (some d) = .ok res ∧
      ∀ m ∈ all_records d,
        (m.close_time = none ∨ m.close_time = some (.str "") ∨
         (∃ s, m.close_time = some (.str s) ∧
            f (py_replace_char 'Z' "+00:00" s) = none)) →
        m ∉ res := by
  obtain ⟨res, hres⟩ := filter_hourly_no_raise
    (fun m hm => is_hourly_no_raise f now (now + 3600 * hours) m (h m hm))
  refine ⟨res, hres, ?_⟩
  intro m hm hbad hmem
  rcases (mem_filter_hourly hres m).mp hmem with ⟨-, htrue⟩
  rw [is_hourly_ok_true_iff] at htrue
  rcases htrue with ⟨-, s, t, hct, hs, hf, -, -⟩
  rcases hbad with hb | hb | ⟨s', hb, hf'⟩
  · rw [hb] at hct; cases hct
  · rw [hb] at hct
    injection hct with h'
    injection h' with h''
    exact hs h''.symm
  · rw [hb] at hct
    injection hct with h'
    injection h' with h''
    subst h''
    rw [hf'] at hf
    cases hf

/-- C4 witness: a fetch whose only record lacks a `close_time` returns
normally (the record is merely excluded). -/
theorem fetch_hourly_markets_string_close_time_safe_witness :
    (fetch_hourly_markets (fun _ => none) 0 1
      (some ⟨some [⟨some "A", some "open", none, none, none⟩],
             none⟩)).isOk = true := by
  obtain ⟨res, hres, -⟩ := fetch_hourly_markets_string_close_time_safe
    (fun _ => none) 0 1
    ⟨some [⟨some "A", some "open", none, none, none⟩], none⟩
    (by intro m hm v hv; simp [all_records] at hm; subst hm; cases hv)
  rw [hres]
  rfl

/-- C5: if at the start of a trading cycle the cumulative PnL has reached
the profit goal or fallen to minus the max drawdown, `auto_trade_logic`
submits zero orders and leaves the state — positions included —
unchanged. -/
theorem auto_trade_logic_halts (bot : KalshiBot)
    (place : OrderPayload → Option String) (markets : List Market)
    (st : TradeState)
    (h : st.cumulative_pnl ≥ bot.profit_goal ∨
         st.cumulative_pnl ≤ -bot.max_drawdown) :
    auto_trade_logic bot place markets st = ([], st) := by
  rcases h with h | h
  · simp [auto_trade_logic, h]
  · unfold auto_trade_logic
    by_cases hg : st.cumulative_pnl ≥ bot.profit_goal
    · simp [hg]
    · simp [hg, h]

/-- C5 witness: with the PnL exactly at the profit goal, a cycle facing a
market that would otherwise qualify issues no order and records no
position. -/
theorem auto_trade_logic_halts_witness :
    auto_trade_logic ⟨0, 1, 9, 1, 10, 100, 50⟩ (fun _ => some "ok")
      [⟨some "T", some "open", none, some 1, none⟩]
      ⟨100, []⟩ = ([], ⟨100, []⟩) :=
  auto_trade_logic_halts _ _ _ _ (Or.inl (le_refl 100))

/-- C6: for a processed market carrying both bids, when both qualify the
loop picks the side with the lower bid — the yes side exactly at equality;
when one side qualifies it is picked; when neither does, no order is
issued for that market. -/
theorem auto_trade_decision_tie_break (bot : KalshiBot) (market : Market)
    (y n : ℚ) (ht : market.ticker.getD "" ≠ "")
    (hy : market.yes_bid = some y) (hn : market.no_bid = some n) :
    ((bot.should_enter_trade y = true ∧ bot.should_enter_trade n = true) →
      (auto_trade_decision bot market =
        some (if y ≤ n then ("yes", y) else ("no", n)) ∧
       (y = n → auto_trade_decision bot market = some ("yes", y)))) ∧
    ((bot.should_enter_trade y = true ∧ ¬ bot.should_enter_trade n = true) →
      auto_trade_decision bot market = some ("yes", y)) ∧
    ((¬ bot.should_enter_trade y = true ∧ bot.should_enter_trade n = true) →
      auto_trade_decision bot market = some ("no", n)) ∧
    ((¬ bot.should_enter_trade y = true ∧ ¬ bot.should_enter_trade n = true) →
      auto_trade_decision bot market = none) := by
  refine ⟨fun ⟨h1, h2⟩ => ⟨?_, fun he => ?_⟩, fun ⟨h1, h2⟩ => ?_,
    fun ⟨h1, h2⟩ => ?_, fun ⟨h1, h2⟩ => ?_⟩
  · by_cases hle : y ≤ n <;>
      simp [auto_trade_decision, hy, hn, ht, h1, h2, hle]
  · subst he
    simp [auto_trade_decision, hy, hn, ht, h1, h2]
  · simp [auto_trade_decision, hy, hn, ht, h1, h2]
  · simp [auto_trade_decision, hy, hn, ht, h1, h2]
  · simp [auto_trade_decision, hy, hn, ht, h1, h2]

/-- C6 witness: with the dashboard's default entry range `[0.30, 0.80]`
and `yes_bid = no_bid = 0.40`, the yes side is selected. -/
theorem auto_trade_decision_tie_break_witness :
    auto_trade_decision ⟨3/10, 4/5, 9/10, 3/20, 10, 100, 50⟩
      ⟨some "T", some "open", none, some (2/5), some (2/5)⟩ =
      some ("yes", 2/5) := by
  have hb : KalshiBot.should_enter_trade ⟨3/10, 4/5, 9/10, 3/20, 10, 100, 50⟩
      (2/5) = true := by
    simp only [KalshiBot.should_enter_trade, decide_eq_true_eq]
    norm_num
  exact ((auto_trade_decision_tie_break _ _ (2/5) (2/5) (by decide) rfl
    rfl).1 ⟨hb, hb⟩).2 rfl

/-- `update_candles` on an empty frame appends one fresh candle. -/
theorem update_candles_nil (interval now p : ℚ) :
    update_candles interval now (some p) [] = [new_candle now p] := rfl

/-- `update_candles` inside the open bucket folds the price into the last
candle. -/
theorem update_candles_fold (interval now p : ℚ) (df : List Candle)
    (last : Candle) (hlast : df.getLast? = some last)
    (hd : (now - last.time) / 60 < interval) :
    update_candles interval now (some p) df =
      df.dropLast ++
        [{ last with high := max last.high p, low := min last.low p, close := p }] := by
  simp [update_candles, hlast, hd]

/-- `update_candles` after the bucket has elapsed appends a fresh candle. -/
theorem update_candles_append (interval now p : ℚ) (df : List Candle)
    (last : Candle) (hlast : df.getLast? = some last)
    (hd : ¬ (now - last.time) / 60 < interval) :
    update_candles interval now (some p) df = df ++ [new_candle now p] := by
  simp [update_candles, hlast, hd]

/-- C7: the candle-update rule — fresh candle on an empty sequence, in-place
fold (max/min/close, `open` and `time` kept) while the bucket is open,
fresh candle otherwise; and the concrete run `[10, 12, 8]` inside one
bucket produces the single candle `{open 10, high 12, low 8, close 8}`. -/
theorem update_candles_spec (interval now p : ℚ) (df : List Candle) :
    (df = [] → update_candles interval now (some p) df = [new_candle now p]) ∧
    (∀ last, df.getLast? = some last →
      ((now - last.time) / 60 < interval →
        update_candles interval now (some p) df =
          df.dropLast ++
            [{ last with high := max last.high p, low := min last.low p, close := p }]) ∧
      (¬ (now - last.time) / 60 < interval →
        update_candles interval now (some p) df = df ++ [new_candle now p])) ∧
    (∀ t0 t1 t2 : ℚ, (t1 - t0) / 60 < interval → (t2 - t0) / 60 < interval →
      update_candles interval t2 (some 8)
        (update_candles interval t1 (some 12)
          (update_candles interval t0 (some 10) [])) =
        [⟨t0, 10, 12, 8, 8⟩]) := by
  refine ⟨?_, ?_, ?_⟩
  · rintro rfl
    rfl
  · intro last hlast
    exact ⟨update_candles_fold interval now p df last hlast,
      update_candles_append interval now p df last hlast⟩
  · intro t0 t1 t2 h1 h2
    have hmax1 : max (10 : ℚ) 12 = 12 := max_eq_right (by norm_num)
    have hmin1 : min (10 : ℚ) 12 = 10 := min_eq_left (by norm_num)
    have e1 : update_candles interval t1 (some 12)
        (update_candles interval t0 (some 10) []) = [⟨t0, 10, 12, 10, 12⟩] := by
      rw [update_candles_nil, update_candles_fold interval t1 12
        [new_candle t0 10] (new_candle t0 10) rfl h1]
      simp [new_candle, hmax1, hmin1]
    rw [e1, update_candles_fold interval t2 8 [⟨t0, 10, 12, 10, 12⟩]
      ⟨t0, 10, 12, 10, 12⟩ rfl h2]
    have hmax2 : max (12 : ℚ) 8 = 12 := max_eq_left (by norm_num)
    have hmin2 : min (10 : ℚ) 8 = 8 := min_eq_right (by norm_num)
    simp [hmax2, hmin2]

/-- C7 witness: three prices 10, 12, 8 at times 0, 60, 120 seconds with a
5-minute bucket collapse into the single candle `{10, 12, 8, 8}`. -/
theorem update_candles_spec_witness :
    update_candles 5 120 (some 8)
      (update_candles 5 60 (some 12) (update_candles 5 0 (some 10) [])) =
      [⟨0, 10, 12, 8, 8⟩] :=
  (update_candles_spec 5 0 0 []).2.2 0 60 120 (by norm_num) (by norm_num)

/-- C8: the OHLC invariant `high ≥ max(open, close)` and
`low ≤ min(open, close)` holds for every candle after any update step —
a skipped sample, a fresh append, or an in-place fold all preserve it. -/
theorem update_candles_invariant (interval now : ℚ) (price : Option ℚ)
    (df : List Candle) (h : ∀ c ∈ df, candle_inv c) :
    ∀ c ∈ update_candles interval now price df, candle_inv c := by
  cases price with
  | none => exact h
  | some p =>
    cases hlast : df.getLast? with
    | none =>
      rw [show update_candles interval now (some p) df =
        [new_candle now p] by simp [update_candles, hlast]]
      intro c hc
      rw [List.mem_singleton] at hc
      subst hc
      exact ⟨by simp [new_candle], by simp [new_candle]⟩
    | some last =>
      have hlinv := h last (List.mem_of_getLast?_eq_some hlast)
      by_cases hd : (now - last.time) / 60 < interval
      · rw [update_candles_fold interval now p df last hlast hd]
        intro c hc
        rcases List.mem_append.mp hc with hc | hc
        · exact h c (List.dropLast_subset df hc)
        · rw [List.mem_singleton] at hc
          subst hc
          constructor
          · exact max_le_max (le_trans (le_max_left _ _) hlinv.1) le_rfl
          · exact min_le_min (le_trans hlinv.2 (min_le_left _ _)) le_rfl
      · rw [update_candles_append interval now p df last hlast hd]
        intro c hc
        rcases List.mem_append.mp hc with hc | hc
        · exact h c hc
        · rw [List.mem_singleton] at hc
          subst hc
          exact ⟨by simp [new_candle], by simp [new_candle]⟩

/-- C8 witness: from an empty (vacuously invariant) sequence, one update
yields a candle satisfying the invariant. -/
theorem update_candles_invariant_witness :
    candle_inv ⟨0, 3, 3, 3, 3⟩ :=
  update_candles_invariant 5 0 (some 3) [] (by simp) ⟨0, 3, 3, 3, 3⟩
    (by rw [update_candles_nil]; exact List.mem_singleton.mpr rfl)

/-- C9 (counterexample): the claim says the submitted price equals the bid
times 100 as integer cents, e.g. `0.29 ↦ 29`.  Under the source's IEEE
binary64 arithmetic a bid of `0.29` is stored as the double
`5224175567749775 / 2 ^ 54`; the float product with 100 rounds to
`8162774324609023 / 2 ^ 48 = 28.999999999999996…`; and `int()` truncates
that to 28, one cent short of `0.29 × 100`. -/
theorem price_in_cents_f64_bid_029_is_28 :
    f64_of_pos_rat 29 100 = (5224175567749775, -54) ∧
    f64_mul (f64_of_pos_rat 29 100) (100, 0) = (8162774324609023, -48) ∧
    price_in_cents_f64 (f64_of_pos_rat 29 100) = 28 ∧
    price_in_cents_f64 (f64_of_pos_rat 29 100) ≠ 29 := by
  decide

/-- C9 (amended): the submitted price is `int(chosen_price * 100)`
computed in binary64 floats, which can fall one cent short of
`chosen_price × 100` (a bid of `0.29` is submitted as 28 cents).  Whenever
the stored double bid `m · 2 ^ e` has `m * 100` within 53 bits the float
product is exact, and the submitted cents equal exactly the integer
`100 ×` the bid — e.g. a bid of `0.25` is submitted as exactly 25 cents. -/
theorem price_in_cents_f64_exact (m : ℕ) (e : ℤ) (c : ℕ)
    (hfit : bitlen (m * 100) ≤ 53)
    (hval : (m : ℚ) * (2 : ℚ) ^ e * 100 = (c : ℚ)) :
    price_in_cents_f64 (m, e) = c := by
  have h1 : f64_mul (m, e) (100, 0) = (m * 100, e) := by
    simp [f64_mul, hfit]
  unfold price_in_cents_f64
  rw [h1]
  by_cases he : 0 ≤ e
  · simp only [f64_to_int, he, if_pos]
    have hk : e = ((e.toNat : ℕ) : ℤ) := (Int.toNat_of_nonneg he).symm
    rw [hk, zpow_natCast] at hval
    have h2 : ((m * 100 * 2 ^ e.toNat : ℕ) : ℚ) = (c : ℚ) := by
      push_cast
      rw [← hval]
      ring
    exact_mod_cast h2
  · simp only [f64_to_int, he, if_neg, not_false_iff]
    have hk : e = -(((-e).toNat : ℕ) : ℤ) := by omega
    rw [hk, zpow_neg, zpow_natCast] at hval
    have hpow : ((2 : ℚ) ^ (-e).toNat) ≠ 0 := by positivity
    have h2 : (m : ℚ) * 100 = (c : ℚ) * 2 ^ (-e).toNat := by
      field_simp at hval
      linarith
    have h3 : m * 100 = c * 2 ^ (-e).toNat := by exact_mod_cast h2
    rw [h3, Nat.mul_div_cancel]
    exact Nat.pos_pow_of_pos _ (by norm_num)

/-- C9 witness: a stored bid of value `0.25` (`1 · 2 ^ (-2)`) is submitted
as exactly 25 cents. -/
theorem price_in_cents_f64_exact_witness :
    price_in_cents_f64 (1, -2) = 25 :=
  price_in_cents_f64_exact 1 (-2) 25 (by decide) (by norm_num)

/-- C10: no poll cycle — whatever markets it sees and however its orders
fare — changes `cumulative_pnl`: the trading loop only reads it
(`update_pnl` is never invoked), so across any run of cycles it keeps its
initial value. -/
theorem cumulative_pnl_frame (bot : KalshiBot) (st : TradeState)
    (cycles : List ((OrderPayload → Option String) × List Market)) :
    (cycles.foldl
      (fun s cyc => (auto_trade_logic bot cyc.1 cyc.2 s).2)
      st).cumulative_pnl = st.cumulative_pnl := by
  induction cycles generalizing st with
  | nil => rfl
  | cons cyc cs ih =>
    rw [List.foldl_cons, ih]
    unfold auto_trade_logic
    split_ifs <;> simp [auto_trade_markets_pnl]

end Kalshi
